import Mathlib

/-!
Shallow embedding of the streaming speech-to-text session logic of
`src/cactus/cactus_stt.cpp` (class `cactus::STT`).

The underlying recognition engine (`whisper_full`) is a black box: each
invocation is modelled by an `EngineResult` supplied by the environment,
carrying the list of new text segments the engine emits through
`whisper_new_segment_callback_static` during the call, and the success
flag of the call itself (`whisper_full(...) == 0`).

Callbacks (`stt_partial_result_cb_`, `stt_final_result_cb_`) are modelled
by presence flags plus an event log: every invocation of a callback is
recorded as an `STTEvent` in the order it happens.
-/

namespace Cactus

/-- Mirror of `struct STTAdvancedParams` in `cactus_stt.h` (the fields the
implementation actually reads). -/
structure STTAdvancedParams where
  n_threads : Int
  token_timestamps : Bool
  temperature : Float
  speed_up : Bool
  audio_ctx : Int
  max_len : Int
  max_tokens : Int
  no_context : Bool

/-- Mirror of the fields of `whisper_full_params` that
`cactus_stt.cpp` assigns before each `whisper_full` call. -/
structure WhisperFullParams where
  language : String
  n_threads : Int
  token_timestamps : Bool
  temperature : Float
  speed_up : Bool
  audio_ctx : Int
  max_len : Int
  max_tokens : Int
  no_context : Bool
  initial_prompt : Option String

/-- Mirror of `whisper_full_default_params(WHISPER_SAMPLING_GREEDY)`,
restricted to the modelled fields.  Only `max_len` and `max_tokens`
(defaults `0`, meaning disabled) survive into an assembled parameter set;
every other modelled field is overwritten by the STT code. -/
def whisper_full_default_params : WhisperFullParams :=
  { language := "en"
    n_threads := 4
    token_timestamps := false
    temperature := 0.0
    speed_up := false
    audio_ctx := 0
    max_len := 0
    max_tokens := 0
    no_context := false
    initial_prompt := none }

/-- The mutable state of a `cactus::STT` object that the streaming API
touches.  `ctx_initialized` stands for `ctx_ != nullptr`; the callback
members are modelled by presence flags. -/
structure STTState where
  ctx_initialized : Bool
  language_ : String
  user_vocabulary_ : String
  stream_audio_buffer_ : List Float
  has_partial_cb : Bool
  has_final_cb : Bool
  current_stream_params_ : STTAdvancedParams
  is_streaming_active_ : Bool
  accumulated_stream_transcription_ : String

/-- A recorded callback invocation. -/
inductive STTEvent where
  | partialResult (text : String)
  | finalResult (text : String)
deriving DecidableEq

/-- The environment's answer to one `whisper_full` call: the new segments
it reports through the new-segment callback during the call, and whether
the call returns `0` (success). -/
structure EngineResult where
  segments : List String
  ret_ok : Bool

/-- Result of one streaming API call: the state afterwards, the boolean
return value, the callback invocations in order, and the parameter sets of
the `whisper_full` invocations (recognition passes) made during the call. -/
structure StepOut where
  state : STTState
  ret : Bool
  events : List STTEvent
  passes : List WhisperFullParams

/-- Mirror of `whisper_new_segment_callback_static` iterating over the new
segments of one `whisper_full` call: for each segment, if
`is_streaming_active_`, append its text to
`accumulated_stream_transcription_` and, when `stt_partial_result_cb_` is
set, invoke it with the segment text. -/
def applySegments (s : STTState) : List String → STTState × List STTEvent
  | [] => (s, [])
  | seg :: rest =>
    if s.is_streaming_active_ then
      let s1 := { s with accumulated_stream_transcription_ :=
                    s.accumulated_stream_transcription_ ++ seg }
      let evs1 := if s1.has_partial_cb then [STTEvent.partialResult seg] else []
      let (s2, evs2) := applySegments s1 rest
      (s2, evs1 ++ evs2)
    else (s, [])

/-- The per-pass parameter assembly shared verbatim by
`STT::processAudioChunk` and `STT::finishStream` (lines 269–299 and
333–352 of `cactus_stt.cpp`): defaults, then language, thread count,
timestamps, temperature, speed-up, audio context, conditional length
caps, the context-carry decision
`accumulated_stream_transcription_.empty() ? current_stream_params_.no_context : false`,
and the vocabulary prompt (`nullptr` when empty). -/
def buildStreamPassParams (s : STTState) : WhisperFullParams :=
  let w0 := whisper_full_default_params
  { w0 with
    language := s.language_
    n_threads := s.current_stream_params_.n_threads
    token_timestamps := s.current_stream_params_.token_timestamps
    temperature := s.current_stream_params_.temperature
    speed_up := s.current_stream_params_.speed_up
    audio_ctx := s.current_stream_params_.audio_ctx
    max_len := if s.current_stream_params_.max_len > 0 then
                 s.current_stream_params_.max_len else w0.max_len
    max_tokens := if s.current_stream_params_.max_tokens > 0 then
                    s.current_stream_params_.max_tokens else w0.max_tokens
    no_context := if s.accumulated_stream_transcription_.isEmpty then
                    s.current_stream_params_.no_context else false
    initial_prompt := if s.user_vocabulary_.isEmpty then none
                      else some s.user_vocabulary_ }

/-- Mirror of `STT::startStream`: fails when the context is missing or a
stream is already active; otherwise stores params and callbacks, clears
buffer and transcript, and marks the stream active. -/
def startStream (s : STTState) (params : STTAdvancedParams)
    (partial_cb final_cb : Bool) : STTState × Bool :=
  if !s.ctx_initialized then (s, false)
  else if s.is_streaming_active_ then (s, false)
  else
    ({ s with
        current_stream_params_ := params
        has_partial_cb := partial_cb
        has_final_cb := final_cb
        stream_audio_buffer_ := []
        accumulated_stream_transcription_ := ""
        is_streaming_active_ := true }, true)

/-- Mirror of `STT::processAudioChunk`: guard on active stream and
context, empty-chunk early success, buffer append, one `whisper_full`
pass over the whole buffer, error teardown (`is_streaming_active_ = false`
and a final-callback invocation with `""`) on failure, buffer clear on
success. -/
def processAudioChunk (s : STTState) (audio_chunk : List Float)
    (eng : EngineResult) : StepOut :=
  if !s.is_streaming_active_ || !s.ctx_initialized then
    ⟨s, false, [], []⟩
  else if audio_chunk.isEmpty then
    ⟨s, true, [], []⟩
  else
    let s1 := { s with stream_audio_buffer_ := s.stream_audio_buffer_ ++ audio_chunk }
    let wparams := buildStreamPassParams s1
    let r := applySegments s1 eng.segments
    if !eng.ret_ok then
      let s3 := { r.1 with is_streaming_active_ := false }
      let evs2 := r.2 ++ (if r.1.has_final_cb then [STTEvent.finalResult ""] else [])
      ⟨s3, false, evs2, [wparams]⟩
    else
      ⟨{ r.1 with stream_audio_buffer_ := [] }, true, r.2, [wparams]⟩

/-- Mirror of `STT::finishStream`: guard on active stream and context;
when the buffer is non-empty, one last `whisper_full` pass whose failure
is only logged (the buffer is cleared either way); then the final
callback with the accumulated transcript, teardown of the streaming
state, and `return true`. -/
def finishStream (s : STTState) (eng : EngineResult) : StepOut :=
  if !s.is_streaming_active_ || !s.ctx_initialized then
    ⟨s, false, [], []⟩
  else
    let mid : STTState × List STTEvent × List WhisperFullParams :=
      if !s.stream_audio_buffer_.isEmpty then
        let wparams := buildStreamPassParams s
        let r := applySegments s eng.segments
        ({ r.1 with stream_audio_buffer_ := [] }, r.2, [wparams])
      else (s, ([] : List STTEvent), ([] : List WhisperFullParams))
    let s1 := mid.1
    let evs2 := mid.2.1 ++ (if s1.has_final_cb then
      [STTEvent.finalResult s1.accumulated_stream_transcription_] else [])
    let s3 := { s1 with
                  is_streaming_active_ := false
                  has_partial_cb := false
                  has_final_cb := false
                  accumulated_stream_transcription_ := "" }
    ⟨s3, true, evs2, mid.2.2⟩

/-- Mirror of `STT::processAudioWithParams` (one-shot path): guard on
context and non-empty samples, parameter assembly with
`no_context = params.no_context` and the vocabulary prompt, one
`whisper_full` call whose success is the return value.  The one-shot path
touches no streaming state and invokes no callbacks. -/
def processAudioWithParams (s : STTState) (samples : List Float)
    (params : STTAdvancedParams) (engine_ok : Bool) : StepOut :=
  if !s.ctx_initialized then ⟨s, false, [], []⟩
  else if samples.isEmpty then ⟨s, false, [], []⟩
  else
    let w0 := whisper_full_default_params
    let wparams : WhisperFullParams :=
      { w0 with
        language := s.language_
        n_threads := params.n_threads
        token_timestamps := params.token_timestamps
        temperature := params.temperature
        speed_up := params.speed_up
        audio_ctx := params.audio_ctx
        max_len := if params.max_len > 0 then params.max_len else w0.max_len
        max_tokens := if params.max_tokens > 0 then params.max_tokens else w0.max_tokens
        no_context := params.no_context
        initial_prompt := if s.user_vocabulary_.isEmpty then none
                          else some s.user_vocabulary_ }
    ⟨s, engine_ok, [], [wparams]⟩

/-- One streaming API call together with the environment's engine answer. -/
inductive StreamCall where
  | feed (chunk : List Float) (eng : EngineResult)
  | finish (eng : EngineResult)

/-- Dispatch one call. -/
def stepCall (s : STTState) : StreamCall → StepOut
  | .feed chunk eng => processAudioChunk s chunk eng
  | .finish eng => finishStream s eng

/-- Run a sequence of calls, accumulating the callback event log. -/
def runCalls (s : STTState) : List StreamCall → STTState × List STTEvent
  | [] => (s, [])
  | c :: rest =>
    let o := stepCall s c
    let (s', evs) := runCalls o.state rest
    (s', o.events ++ evs)

/-- Texts of the partial-result callback invocations, in order. -/
def partialTexts (evs : List STTEvent) : List String :=
  evs.filterMap fun e => match e with
    | .partialResult t => some t
    | .finalResult _ => none

/-- Texts of the final-result callback invocations, in order. -/
def finalTexts (evs : List STTEvent) : List String :=
  evs.filterMap fun e => match e with
    | .partialResult _ => none
    | .finalResult t => some t

/-- Ordered concatenation of a list of strings. -/
def concatAll : List String → String
  | [] => ""
  | t :: rest => t ++ concatAll rest

/-- A concrete parameter set with the header defaults of
`STTAdvancedParams` and `no_context = true`. -/
def exampleParams : STTAdvancedParams :=
  { n_threads := 4
    token_timestamps := false
    temperature := 0.0
    speed_up := false
    audio_ctx := 0
    max_len := 0
    max_tokens := 0
    no_context := true }

/-- A concrete idle, initialized STT instance. -/
def idleExample : STTState :=
  { ctx_initialized := true
    language_ := "en"
    user_vocabulary_ := ""
    stream_audio_buffer_ := []
    has_partial_cb := false
    has_final_cb := false
    current_stream_params_ := exampleParams
    is_streaming_active_ := false
    accumulated_stream_transcription_ := "" }

/-- A concrete instance in the middle of an active streaming session with
both callbacks installed. -/
def activeExample : STTState :=
  { ctx_initialized := true
    language_ := "en"
    user_vocabulary_ := ""
    stream_audio_buffer_ := []
    has_partial_cb := true
    has_final_cb := true
    current_stream_params_ := exampleParams
    is_streaming_active_ := true
    accumulated_stream_transcription_ := "" }

/-- A `feed` call with a non-empty chunk whose recognition pass succeeds. -/
def goodFeed : StreamCall → Prop
  | .feed chunk eng => chunk.isEmpty = false ∧ eng.ret_ok = true
  | .finish _ => False

theorem string_append_assoc (a b c : String) : a ++ b ++ c = a ++ (b ++ c) := by
  apply String.ext
  simp

/-- The segment callback loop leaves every state field except the
accumulated transcript untouched and emits only partial-result events. -/
theorem applySegments_fields (segs : List String) : ∀ (s : STTState),
    (applySegments s segs).1.ctx_initialized = s.ctx_initialized ∧
    (applySegments s segs).1.language_ = s.language_ ∧
    (applySegments s segs).1.user_vocabulary_ = s.user_vocabulary_ ∧
    (applySegments s segs).1.stream_audio_buffer_ = s.stream_audio_buffer_ ∧
    (applySegments s segs).1.has_partial_cb = s.has_partial_cb ∧
    (applySegments s segs).1.has_final_cb = s.has_final_cb ∧
    (applySegments s segs).1.current_stream_params_ = s.current_stream_params_ ∧
    (applySegments s segs).1.is_streaming_active_ = s.is_streaming_active_ ∧
    finalTexts (applySegments s segs).2 = [] := by
  induction segs with
  | nil => intro s; simp [applySegments, finalTexts]
  | cons seg rest ih =>
    intro s
    by_cases h : s.is_streaming_active_ = true
    · have := ih { s with accumulated_stream_transcription_ :=
        s.accumulated_stream_transcription_ ++ seg }
      simp only [applySegments, h, if_true] at *
      rcases this with ⟨h1, h2, h3, h4, h5, h6, h7, h8, h9⟩
      refine ⟨h1, h2, h3, h4, h5, h6, h7, h8, ?_⟩
      by_cases hp : s.has_partial_cb = true <;>
        simp [hp, finalTexts, List.filterMap_append] at h9 ⊢ <;> exact h9
    · simp only [Bool.not_eq_true] at h
      simp [applySegments, h, finalTexts]

/-- On an active state with the partial callback installed, the segment
callback loop appends the concatenation of the segments to the
accumulated transcript and emits exactly one partial-result event per
segment, in order. -/
theorem applySegments_active (segs : List String) : ∀ (s : STTState),
    s.is_streaming_active_ = true → s.has_partial_cb = true →
    applySegments s segs =
      ({ s with accumulated_stream_transcription_ :=
          s.accumulated_stream_transcription_ ++ concatAll segs },
       segs.map STTEvent.partialResult) := by
  induction segs with
  | nil => intro s hs _; simp [applySegments, concatAll]
  | cons seg rest ih =>
    rintro ⟨c, l, v, b, pc, fc, pp, act, acc⟩ hs hp
    simp only at hs hp
    subst hs hp
    have := ih { ctx_initialized := c, language_ := l, user_vocabulary_ := v,
                 stream_audio_buffer_ := b, has_partial_cb := true,
                 has_final_cb := fc, current_stream_params_ := pp,
                 is_streaming_active_ := true,
                 accumulated_stream_transcription_ := acc ++ seg } rfl rfl
    simp only [applySegments, if_true, this, concatAll, List.map_cons]
    rw [string_append_assoc]
    simp

/-- On an active state the segment callback loop appends the
concatenation of the segments to the accumulated transcript, whether or
not the partial callback is installed (the append at cactus_stt.cpp:34 is
unconditional). -/
theorem applySegments_accumulated (segs : List String) : ∀ (s : STTState),
    s.is_streaming_active_ = true →
    (applySegments s segs).1.accumulated_stream_transcription_ =
      s.accumulated_stream_transcription_ ++ concatAll segs := by
  induction segs with
  | nil => intro s _; simp [applySegments, concatAll]
  | cons seg rest ih =>
    rintro ⟨c, l, v, b, pc, fc, pp, act, acc⟩ hs
    simp only at hs
    subst hs
    have := ih { ctx_initialized := c, language_ := l, user_vocabulary_ := v,
                 stream_audio_buffer_ := b, has_partial_cb := pc,
                 has_final_cb := fc, current_stream_params_ := pp,
                 is_streaming_active_ := true,
                 accumulated_stream_transcription_ := acc ++ seg } rfl
    simp only [applySegments, if_true, concatAll]
    rw [string_append_assoc] at this
    simp only [this]

theorem finalTexts_append (a b : List STTEvent) :
    finalTexts (a ++ b) = finalTexts a ++ finalTexts b := by
  simp [finalTexts, List.filterMap_append]

theorem partialTexts_append (a b : List STTEvent) :
    partialTexts (a ++ b) = partialTexts a ++ partialTexts b := by
  simp [partialTexts, List.filterMap_append]

theorem partialTexts_map (l : List String) :
    partialTexts (l.map STTEvent.partialResult) = l := by
  induction l with
  | nil => rfl
  | cons t rest ih =>
    simp only [partialTexts] at ih
    simp only [List.map_cons, partialTexts, List.filterMap_cons, ih]

theorem finalTexts_map (l : List String) :
    finalTexts (l.map STTEvent.partialResult) = [] := by
  induction l with
  | nil => rfl
  | cons t rest ih =>
    simp only [finalTexts] at ih
    simp only [List.map_cons, finalTexts, List.filterMap_cons, ih]

theorem concatAll_append (a b : List String) :
    concatAll (a ++ b) = concatAll a ++ concatAll b := by
  induction a with
  | nil => simp [concatAll]
  | cons t rest ih => simp [concatAll, ih, string_append_assoc]

/-- Once `is_streaming_active_` is false, every streaming call fails
without touching the state, invoking a callback, or making a pass. -/
theorem stepCall_inactive (s : STTState) (c : StreamCall)
    (h : s.is_streaming_active_ = false) : stepCall s c = ⟨s, false, [], []⟩ := by
  cases c with
  | feed chunk eng => simp [stepCall, processAudioChunk, h]
  | finish eng => simp [stepCall, finishStream, h]

/-- Once inactive, a whole run of calls does nothing. -/
theorem runCalls_inactive (calls : List StreamCall) : ∀ (s : STTState),
    s.is_streaming_active_ = false → runCalls s calls = (s, []) := by
  induction calls with
  | nil => intro s _; rfl
  | cons c rest ih =>
    intro s h
    simp [runCalls, stepCall_inactive s c h, ih s h]

/-- Splitting a run of calls at a list boundary. -/
theorem runCalls_append (a b : List StreamCall) : ∀ (s : STTState),
    runCalls s (a ++ b) =
      ((runCalls (runCalls s a).1 b).1,
       (runCalls s a).2 ++ (runCalls (runCalls s a).1 b).2) := by
  induction a with
  | nil => intro s; simp [runCalls]
  | cons c rest ih =>
    intro s
    simp [runCalls, ih]

/-- One streaming call from an active state with the final callback
installed: if it leaves the stream active it invoked the final callback
zero times and preserved the context and the callback; if it deactivated
the stream it invoked the final callback exactly once. -/
theorem finalTexts_nil : finalTexts [] = [] := rfl

theorem finalTexts_single_final (t : String) :
    finalTexts [STTEvent.finalResult t] = [t] := rfl

theorem stepCall_count (s : STTState) (c : StreamCall)
    (hs : s.is_streaming_active_ = true) (hc : s.ctx_initialized = true)
    (hf : s.has_final_cb = true) :
    ((stepCall s c).state.is_streaming_active_ = true →
       finalTexts (stepCall s c).events = [] ∧
       (stepCall s c).state.ctx_initialized = true ∧
       (stepCall s c).state.has_final_cb = true) ∧
    ((stepCall s c).state.is_streaming_active_ = false →
       (finalTexts (stepCall s c).events).length = 1) := by
  obtain ⟨cx, l, v, b, pc, fc, pp, act, acc⟩ := s
  simp only at hs hc hf
  subst hs; subst hc; subst hf
  cases c with
  | feed chunk eng =>
    by_cases he : chunk.isEmpty
    · simp [stepCall, processAudioChunk, he, finalTexts]
    · obtain ⟨h1, h2, h3, h4, h5, h6, h7, h8, h9⟩ :=
        applySegments_fields eng.segments ⟨true, l, v, b ++ chunk, pc, true, pp, true, acc⟩
      by_cases hr : eng.ret_ok
      · simp [stepCall, processAudioChunk, he, hr, h1, h6, h8, h9]
      · simp only [Bool.not_eq_true] at hr
        simp [stepCall, processAudioChunk, he, hr, h6,
          finalTexts_append, h9, finalTexts_nil, finalTexts_single_final]
  | finish eng =>
    by_cases hb : b.isEmpty
    · simp [stepCall, finishStream, hb,
        finalTexts_append, finalTexts_nil, finalTexts_single_final]
    · obtain ⟨h1, h2, h3, h4, h5, h6, h7, h8, h9⟩ :=
        applySegments_fields eng.segments ⟨true, l, v, b, pc, true, pp, true, acc⟩
      simp [stepCall, finishStream, hb, h6,
        finalTexts_append, h9, finalTexts_nil, finalTexts_single_final]

/-- Over any run of streaming calls starting from an active session with
the final callback installed: if the run ends with the stream inactive,
the final callback was invoked exactly once; if it ends still active, the
final callback was never invoked and the context and callback are still
in place. -/
theorem runCalls_count (calls : List StreamCall) : ∀ (s : STTState),
    s.is_streaming_active_ = true → s.ctx_initialized = true →
    s.has_final_cb = true →
    ((runCalls s calls).1.is_streaming_active_ = false →
       (finalTexts (runCalls s calls).2).length = 1) ∧
    ((runCalls s calls).1.is_streaming_active_ = true →
       (finalTexts (runCalls s calls).2).length = 0 ∧
       (runCalls s calls).1.ctx_initialized = true ∧
       (runCalls s calls).1.has_final_cb = true) := by
  induction calls with
  | nil =>
    intro s hs hc hf
    constructor
    · intro h
      rw [runCalls] at h
      simp [hs] at h
    · intro _
      simp [runCalls, finalTexts, hs, hc, hf]
  | cons c rest ih =>
    intro s hs hc hf
    obtain ⟨hactive, hinactive⟩ := stepCall_count s c hs hc hf
    have hrun : runCalls s (c :: rest) =
        ((runCalls (stepCall s c).state rest).1,
         (stepCall s c).events ++ (runCalls (stepCall s c).state rest).2) := by
      simp [runCalls]
    rw [hrun]
    by_cases hstep : (stepCall s c).state.is_streaming_active_ = true
    · obtain ⟨hz, hc', hf'⟩ := hactive hstep
      obtain ⟨ih1, ih2⟩ := ih (stepCall s c).state hstep hc' hf'
      constructor
      · intro h
        simp [finalTexts_append, hz, finalTexts_nil, ih1 h]
      · intro h
        obtain ⟨j1, j2, j3⟩ := ih2 h
        simp [finalTexts_append, hz, finalTexts_nil, j1, j2, j3]
    · simp only [Bool.not_eq_true] at hstep
      have hrest := runCalls_inactive rest (stepCall s c).state hstep
      rw [hrest]
      constructor
      · intro _
        simp [finalTexts_append, finalTexts_nil, hinactive hstep]
      · intro h
        rw [hstep] at h
        simp at h

/-- Running any number of successful non-empty `feed` calls from a fresh
active session state keeps the session active with its callbacks, leaves
the buffer empty, emits no final event, and grows the accumulated
transcript by exactly the concatenation of the partial results emitted. -/
theorem runCalls_goodFeeds (feeds : List StreamCall) : ∀ (s : STTState),
    (∀ c ∈ feeds, goodFeed c) →
    s.is_streaming_active_ = true → s.ctx_initialized = true →
    s.has_partial_cb = true → s.has_final_cb = true →
    s.stream_audio_buffer_ = [] →
    (runCalls s feeds).1.is_streaming_active_ = true ∧
    (runCalls s feeds).1.ctx_initialized = true ∧
    (runCalls s feeds).1.has_partial_cb = true ∧
    (runCalls s feeds).1.has_final_cb = true ∧
    (runCalls s feeds).1.stream_audio_buffer_ = [] ∧
    (runCalls s feeds).1.accumulated_stream_transcription_ =
      s.accumulated_stream_transcription_ ++
        concatAll (partialTexts (runCalls s feeds).2) ∧
    finalTexts (runCalls s feeds).2 = [] := by
  induction feeds with
  | nil =>
    intro s _ hs hc hp hf hb
    simp [runCalls, partialTexts, concatAll, finalTexts, hs, hc, hp, hf, hb]
  | cons c rest ih =>
    rintro ⟨cx, l, v, b, pc, fc, pp, act, acc⟩ hgood hs hc hp hf hb
    simp only at hs hc hp hf hb
    subst hs; subst hc; subst hp; subst hf; subst hb
    cases c with
    | finish eng =>
      have := hgood (StreamCall.finish eng) (by simp)
      simp [goodFeed] at this
    | feed chunk eng =>
      obtain ⟨hch, hok⟩ := hgood (StreamCall.feed chunk eng) (by simp)
      have hseg := applySegments_active eng.segments
        ⟨true, l, v, chunk, true, true, pp, true, acc⟩ rfl rfl
      have hstep : stepCall ⟨true, l, v, [], true, true, pp, true, acc⟩
          (StreamCall.feed chunk eng) =
          ⟨⟨true, l, v, [], true, true, pp, true, acc ++ concatAll eng.segments⟩,
           true, eng.segments.map STTEvent.partialResult,
           [buildStreamPassParams ⟨true, l, v, chunk, true, true, pp, true, acc⟩]⟩ := by
        simp [stepCall, processAudioChunk, hch, hok, hseg]
      have hrun : runCalls ⟨true, l, v, [], true, true, pp, true, acc⟩
          (StreamCall.feed chunk eng :: rest) =
          ((runCalls ⟨true, l, v, [], true, true, pp, true,
              acc ++ concatAll eng.segments⟩ rest).1,
           eng.segments.map STTEvent.partialResult ++
             (runCalls ⟨true, l, v, [], true, true, pp, true,
               acc ++ concatAll eng.segments⟩ rest).2) := by
        simp [runCalls, hstep]
      obtain ⟨ih1, ih2, ih3, ih4, ih5, ih6, ih7⟩ :=
        ih ⟨true, l, v, [], true, true, pp, true, acc ++ concatAll eng.segments⟩
          (fun d hd => hgood d (by simp [hd])) rfl rfl rfl rfl rfl
      rw [hrun]
      refine ⟨ih1, ih2, ih3, ih4, ih5, ?_, ?_⟩
      · rw [ih6]
        simp only [partialTexts_append, partialTexts_map, concatAll_append]
        rw [string_append_assoc]
      · simp [finalTexts_append, finalTexts_map, ih7]

/-- `finishStream` on an active session with an empty buffer: no pass, a
single final-callback invocation with the accumulated transcript when the
callback is set, teardown of the streaming state, return `true`. -/
theorem finishStream_of_empty_buffer (s : STTState) (eng : EngineResult)
    (hs : s.is_streaming_active_ = true) (hc : s.ctx_initialized = true)
    (hb : s.stream_audio_buffer_.isEmpty = true) :
    finishStream s eng =
      ⟨{ s with is_streaming_active_ := false, has_partial_cb := false,
                 has_final_cb := false, accumulated_stream_transcription_ := "" },
       true,
       (if s.has_final_cb = true then
          [STTEvent.finalResult s.accumulated_stream_transcription_] else []),
       []⟩ := by
  simp [finishStream, hs, hc, hb]

/-- C7: `processAudioChunk` with an empty chunk during an active session
reports success, makes no recognition pass, invokes no callback, and
leaves the whole session state unchanged. -/
theorem feed_empty_chunk_noop (s : STTState) (eng : EngineResult)
    (hs : s.is_streaming_active_ = true) (hc : s.ctx_initialized = true) :
    processAudioChunk s [] eng = ⟨s, true, [], []⟩ := by
  simp [processAudioChunk, hs, hc]

theorem feed_empty_chunk_noop_witness :
    processAudioChunk activeExample [] ⟨["x"], true⟩ =
      ⟨activeExample, true, [], []⟩ :=
  feed_empty_chunk_noop activeExample ⟨["x"], true⟩ rfl rfl

/-- C8: `processAudioChunk` and `finishStream` called while the session
is not streaming return failure, invoke no callback, make no pass, and
leave the state unchanged. -/
theorem idle_calls_rejected (s : STTState) (chunk : List Float)
    (eng engF : EngineResult) (hs : s.is_streaming_active_ = false) :
    processAudioChunk s chunk eng = ⟨s, false, [], []⟩ ∧
    finishStream s engF = ⟨s, false, [], []⟩ := by
  constructor
  · simp [processAudioChunk, hs]
  · simp [finishStream, hs]

theorem idle_calls_rejected_witness :
    processAudioChunk idleExample [1.0] ⟨["x"], true⟩ =
      ⟨idleExample, false, [], []⟩ ∧
    finishStream idleExample ⟨["x"], true⟩ = ⟨idleExample, false, [], []⟩ :=
  idle_calls_rejected idleExample [1.0] ⟨["x"], true⟩ ⟨["x"], true⟩ rfl

/-- C9: `finishStream` on an active session returns `true` for every
possible engine outcome, in particular when the final pass fails; the
engine call's success flag never reaches the boolean return value. -/
theorem finishStream_always_true_when_active (s : STTState)
    (eng : EngineResult) (hs : s.is_streaming_active_ = true)
    (hc : s.ctx_initialized = true) :
    (finishStream s eng).ret = true := by
  by_cases hb : s.stream_audio_buffer_.isEmpty
  · simp [finishStream, hs, hc, hb]
  · simp [finishStream, hs, hc, hb]

theorem finishStream_always_true_when_active_witness :
    (finishStream { activeExample with stream_audio_buffer_ := [1.0] }
      ⟨["x"], false⟩).ret = true :=
  finishStream_always_true_when_active
    { activeExample with stream_audio_buffer_ := [1.0] } ⟨["x"], false⟩ rfl rfl

/-- C10: `finishStream` on an active session with an empty audio buffer
makes no engine call, invokes the final callback (when set) exactly once
with the accumulated transcript, clears the streaming state (active flag,
both callbacks, transcript), and returns `true`. -/
theorem finishStream_empty_buffer_no_pass (s : STTState) (eng : EngineResult)
    (hs : s.is_streaming_active_ = true) (hc : s.ctx_initialized = true)
    (hb : s.stream_audio_buffer_.isEmpty = true) :
    finishStream s eng =
      ⟨{ s with is_streaming_active_ := false, has_partial_cb := false,
                 has_final_cb := false, accumulated_stream_transcription_ := "" },
       true,
       (if s.has_final_cb = true then
          [STTEvent.finalResult s.accumulated_stream_transcription_] else []),
       []⟩ :=
  finishStream_of_empty_buffer s eng hs hc hb

theorem finishStream_empty_buffer_no_pass_witness :
    finishStream { activeExample with accumulated_stream_transcription_ := "acc" }
      ⟨["x"], true⟩ =
      ⟨{ { activeExample with accumulated_stream_transcription_ := "acc" } with
           is_streaming_active_ := false, has_partial_cb := false,
           has_final_cb := false, accumulated_stream_transcription_ := "" },
       true, [STTEvent.finalResult "acc"], []⟩ :=
  finishStream_empty_buffer_no_pass
    { activeExample with accumulated_stream_transcription_ := "acc" }
    ⟨["x"], true⟩ rfl rfl rfl

/-- C6: at every recognition pass — the one-shot
`processAudioWithParams` path and the streaming passes of
`processAudioChunk` and `finishStream` — the assembled parameters carry
`initial_prompt = some user_vocabulary_` when the stored vocabulary is
non-empty and `initial_prompt = none` when it is empty. -/
theorem vocabulary_prompt_policy :
    (∀ (s : STTState) (samples : List Float) (params : STTAdvancedParams)
       (ok : Bool), s.ctx_initialized = true → samples.isEmpty = false →
       (processAudioWithParams s samples params ok).passes.map
           WhisperFullParams.initial_prompt =
         [if s.user_vocabulary_.isEmpty then none else some s.user_vocabulary_]) ∧
    (∀ (s : STTState) (chunk : List Float) (eng : EngineResult),
       s.is_streaming_active_ = true → s.ctx_initialized = true →
       chunk.isEmpty = false →
       (processAudioChunk s chunk eng).passes.map
           WhisperFullParams.initial_prompt =
         [if s.user_vocabulary_.isEmpty then none else some s.user_vocabulary_]) ∧
    (∀ (s : STTState) (eng : EngineResult),
       s.is_streaming_active_ = true → s.ctx_initialized = true →
       s.stream_audio_buffer_.isEmpty = false →
       (finishStream s eng).passes.map WhisperFullParams.initial_prompt =
         [if s.user_vocabulary_.isEmpty then none else some s.user_vocabulary_]) := by
  refine ⟨?_, ?_, ?_⟩
  · intro s samples params ok hc hne
    simp [processAudioWithParams, hc, hne]
  · intro s chunk eng hs hc hne
    by_cases hr : eng.ret_ok <;>
      simp [processAudioChunk, buildStreamPassParams, hs, hc, hne, hr]
  · intro s eng hs hc hne
    simp [finishStream, buildStreamPassParams, hs, hc, hne]

theorem vocabulary_prompt_policy_witness :
    ((processAudioWithParams { activeExample with user_vocabulary_ := "jargon" }
        [1.0] exampleParams true).passes.map WhisperFullParams.initial_prompt =
      [some "jargon"]) ∧
    ((processAudioChunk activeExample [1.0] ⟨["x"], true⟩).passes.map
        WhisperFullParams.initial_prompt = [none]) ∧
    ((finishStream { activeExample with stream_audio_buffer_ := [1.0], user_vocabulary_ := "jargon" } ⟨["x"], true⟩).passes.map
        WhisperFullParams.initial_prompt = [some "jargon"]) :=
  ⟨vocabulary_prompt_policy.1 { activeExample with user_vocabulary_ := "jargon" }
     [1.0] exampleParams true rfl rfl,
   vocabulary_prompt_policy.2.1 activeExample [1.0] ⟨["x"], true⟩ rfl rfl rfl,
   vocabulary_prompt_policy.2.2 { activeExample with stream_audio_buffer_ := [1.0], user_vocabulary_ := "jargon" } ⟨["x"], true⟩ rfl rfl rfl⟩

/-- C1 counterexample: a session started with `noContext = true` whose
first pass succeeds but emits no text (silence).  The second `feed` pass
— a subsequent pass of the same session — is again invoked with
no-context = `true`, not `false` as the claim requires, because the code
keys the decision on the accumulated transcript being non-empty rather
than on a pass having happened. -/
theorem context_policy_counterexample :
    ((processAudioChunk
        (processAudioChunk (startStream idleExample exampleParams true true).1
          [0.0] ⟨[], true⟩).state
        [0.0] ⟨[], true⟩).passes.map WhisperFullParams.no_context) = [true] ∧
    ((processAudioChunk
        (processAudioChunk (startStream idleExample exampleParams true true).1
          [0.0] ⟨[], true⟩).state
        [0.0] ⟨[], true⟩).passes.map WhisperFullParams.no_context) ≠ [false] := by
  constructor
  · decide
  · decide

/-- C1 (amended): a session's first pass honors the stored
`params.no_context` (the accumulated transcript is empty right after
`startStream`); every later pass — in `processAudioChunk` or the final
pass of `finishStream` — is invoked with no-context = `false` exactly
when the accumulated transcript is non-empty, i.e. when some earlier pass
of the session produced text, and otherwise again honors
`params.no_context`. -/
theorem context_policy_amended :
    (∀ (s : STTState) (params : STTAdvancedParams) (pc fc : Bool),
       s.ctx_initialized = true → s.is_streaming_active_ = false →
       (startStream s params pc fc).1.accumulated_stream_transcription_ = "") ∧
    (∀ (s : STTState) (chunk : List Float) (eng : EngineResult),
       s.is_streaming_active_ = true → s.ctx_initialized = true →
       chunk.isEmpty = false →
       (processAudioChunk s chunk eng).passes.map WhisperFullParams.no_context =
         [if s.accumulated_stream_transcription_.isEmpty then
            s.current_stream_params_.no_context else false]) ∧
    (∀ (s : STTState) (eng : EngineResult),
       s.is_streaming_active_ = true → s.ctx_initialized = true →
       s.stream_audio_buffer_.isEmpty = false →
       (finishStream s eng).passes.map WhisperFullParams.no_context =
         [if s.accumulated_stream_transcription_.isEmpty then
            s.current_stream_params_.no_context else false]) := by
  refine ⟨?_, ?_, ?_⟩
  · intro s params pc fc hc hs
    simp [startStream, hc, hs]
  · intro s chunk eng hs hc hne
    by_cases hr : eng.ret_ok <;>
      simp [processAudioChunk, buildStreamPassParams, hs, hc, hne, hr]
  · intro s eng hs hc hne
    simp [finishStream, buildStreamPassParams, hs, hc, hne]

theorem context_policy_amended_witness :
    ((startStream idleExample exampleParams true true).1.accumulated_stream_transcription_
        = "") ∧
    ((processAudioChunk activeExample [1.0] ⟨["x"], true⟩).passes.map
        WhisperFullParams.no_context = [true]) ∧
    ((processAudioChunk { activeExample with accumulated_stream_transcription_ := "said" } [1.0] ⟨["x"], true⟩).passes.map
        WhisperFullParams.no_context = [false]) ∧
    ((finishStream { activeExample with stream_audio_buffer_ := [1.0], accumulated_stream_transcription_ := "said" } ⟨["x"], true⟩).passes.map
        WhisperFullParams.no_context = [false]) :=
  ⟨context_policy_amended.1 idleExample exampleParams true true rfl rfl,
   context_policy_amended.2.1 activeExample [1.0] ⟨["x"], true⟩ rfl rfl rfl,
   context_policy_amended.2.1 { activeExample with accumulated_stream_transcription_ := "said" } [1.0] ⟨["x"], true⟩ rfl rfl rfl,
   context_policy_amended.2.2 { activeExample with stream_audio_buffer_ := [1.0], accumulated_stream_transcription_ := "said" } ⟨["x"], true⟩ rfl rfl rfl⟩

/-- C2 counterexample: a `feed` pass failure on a session holding the
transcript `"hello"`.  The session does transition out of streaming and
the final callback does fire with an error outcome, but the audio buffer
still holds the unprocessed chunk and the accumulated transcript is still
`"hello"` — neither is cleared, contradicting the claim. -/
theorem feed_failure_counterexample :
    ((processAudioChunk { activeExample with accumulated_stream_transcription_ := "hello" }
        [1.0] ⟨[], false⟩).state.stream_audio_buffer_.isEmpty = false) ∧
    ((processAudioChunk { activeExample with accumulated_stream_transcription_ := "hello" }
        [1.0] ⟨[], false⟩).state.accumulated_stream_transcription_ = "hello") := by
  constructor
  · decide
  · decide

/-- C2 (amended): when a recognition pass triggered by `feed` fails, the
session leaves the streaming state (Idle), the final callback is invoked
exactly once with the error outcome `""`, and every subsequent `feed` or
`finish` call fails without events or passes — but the audio buffer keeps
the audio accumulated for the failed pass, and the accumulated transcript
is NOT cleared: it equals the transcript before the call extended by any
text the failing pass emitted (both are reset only by the next
`startStream` or by `cleanup`). -/
theorem feed_failure_teardown (s : STTState) (chunk : List Float)
    (segs : List String) (hs : s.is_streaming_active_ = true)
    (hc : s.ctx_initialized = true) (hf : s.has_final_cb = true)
    (hch : chunk.isEmpty = false) :
    (processAudioChunk s chunk ⟨segs, false⟩).ret = false ∧
    (processAudioChunk s chunk ⟨segs, false⟩).state.is_streaming_active_ = false ∧
    finalTexts (processAudioChunk s chunk ⟨segs, false⟩).events = [""] ∧
    (processAudioChunk s chunk ⟨segs, false⟩).state.stream_audio_buffer_ =
      s.stream_audio_buffer_ ++ chunk ∧
    (processAudioChunk s chunk ⟨segs, false⟩).state.accumulated_stream_transcription_ =
      s.accumulated_stream_transcription_ ++ concatAll segs ∧
    (∀ c : StreamCall,
      stepCall (processAudioChunk s chunk ⟨segs, false⟩).state c =
        ⟨(processAudioChunk s chunk ⟨segs, false⟩).state, false, [], []⟩) := by
  obtain ⟨cx, l, v, b, pc, fc, pp, act, acc⟩ := s
  simp only at hs hc hf
  subst hs; subst hc; subst hf
  obtain ⟨h1, h2, h3, h4, h5, h6, h7, h8, h9⟩ :=
    applySegments_fields segs ⟨true, l, v, b ++ chunk, pc, true, pp, true, acc⟩
  have hacc := applySegments_accumulated segs
    ⟨true, l, v, b ++ chunk, pc, true, pp, true, acc⟩ rfl
  refine ⟨?_, ?_, ?_, ?_, ?_, ?_⟩
  · simp [processAudioChunk, hch]
  · simp [processAudioChunk, hch]
  · simp [processAudioChunk, hch, h6, finalTexts_append, h9,
      finalTexts_nil, finalTexts_single_final]
  · simp [processAudioChunk, hch, h4]
  · simp [processAudioChunk, hch, hacc]
  · intro c
    apply stepCall_inactive
    simp [processAudioChunk, hch]

theorem feed_failure_teardown_witness :
    ((processAudioChunk { activeExample with accumulated_stream_transcription_ := "tr" }
        [1.0] ⟨["seg"], false⟩).ret = false) ∧
    ((processAudioChunk { activeExample with accumulated_stream_transcription_ := "tr" }
        [1.0] ⟨["seg"], false⟩).state.is_streaming_active_ = false) ∧
    (finalTexts (processAudioChunk { activeExample with accumulated_stream_transcription_ := "tr" }
        [1.0] ⟨["seg"], false⟩).events = [""]) ∧
    ((processAudioChunk { activeExample with accumulated_stream_transcription_ := "tr" }
        [1.0] ⟨["seg"], false⟩).state.stream_audio_buffer_ =
      { activeExample with accumulated_stream_transcription_ := "tr" }.stream_audio_buffer_ ++ [1.0]) ∧
    ((processAudioChunk { activeExample with accumulated_stream_transcription_ := "tr" }
        [1.0] ⟨["seg"], false⟩).state.accumulated_stream_transcription_ = "trseg") ∧
    (stepCall (processAudioChunk { activeExample with accumulated_stream_transcription_ := "tr" }
        [1.0] ⟨["seg"], false⟩).state (StreamCall.finish ⟨["z"], true⟩) =
      ⟨(processAudioChunk { activeExample with accumulated_stream_transcription_ := "tr" }
        [1.0] ⟨["seg"], false⟩).state, false, [], []⟩) :=
  ⟨(feed_failure_teardown { activeExample with accumulated_stream_transcription_ := "tr" }
      [1.0] ["seg"] rfl rfl rfl rfl).1,
   (feed_failure_teardown { activeExample with accumulated_stream_transcription_ := "tr" }
      [1.0] ["seg"] rfl rfl rfl rfl).2.1,
   (feed_failure_teardown { activeExample with accumulated_stream_transcription_ := "tr" }
      [1.0] ["seg"] rfl rfl rfl rfl).2.2.1,
   (feed_failure_teardown { activeExample with accumulated_stream_transcription_ := "tr" }
      [1.0] ["seg"] rfl rfl rfl rfl).2.2.2.1,
   (feed_failure_teardown { activeExample with accumulated_stream_transcription_ := "tr" }
      [1.0] ["seg"] rfl rfl rfl rfl).2.2.2.2.1,
   (feed_failure_teardown { activeExample with accumulated_stream_transcription_ := "tr" }
      [1.0] ["seg"] rfl rfl rfl rfl).2.2.2.2.2 (StreamCall.finish ⟨["z"], true⟩)⟩

/-- C3 counterexample: a `feed` whose recognition pass runs (one pass is
made) and fails.  Immediately after the pass completes, the audio buffer
is not empty — the early-error return skips the clear — contradicting the
claim that the buffer is empty after every pass, success or failure. -/
theorem buffer_after_pass_counterexample :
    ((processAudioChunk activeExample [2.0, 3.0] ⟨["y"], false⟩).passes.length = 1) ∧
    ((processAudioChunk activeExample [2.0, 3.0]
        ⟨["y"], false⟩).state.stream_audio_buffer_.isEmpty = false) := by
  constructor
  · decide
  · decide

/-- C3 (amended): the audio buffer is empty immediately after a
*successful* pass inside `feed`, and after the `finish` pass whether the
engine call succeeds or fails; after a *failed* pass inside `feed` the
buffer retains the buffered audio (the audio accumulated for that pass). -/
theorem buffer_empty_after_pass_amended :
    (∀ (s : STTState) (chunk : List Float) (eng : EngineResult),
       s.is_streaming_active_ = true → s.ctx_initialized = true →
       chunk.isEmpty = false → eng.ret_ok = true →
       (processAudioChunk s chunk eng).state.stream_audio_buffer_ = []) ∧
    (∀ (s : STTState) (eng : EngineResult),
       s.is_streaming_active_ = true → s.ctx_initialized = true →
       (finishStream s eng).state.stream_audio_buffer_ = []) ∧
    (∀ (s : STTState) (chunk : List Float) (eng : EngineResult),
       s.is_streaming_active_ = true → s.ctx_initialized = true →
       chunk.isEmpty = false → eng.ret_ok = false →
       (processAudioChunk s chunk eng).state.stream_audio_buffer_ =
         s.stream_audio_buffer_ ++ chunk) := by
  refine ⟨?_, ?_, ?_⟩
  · intro s chunk eng hs hc hch hr
    simp [processAudioChunk, hs, hc, hch, hr]
  · intro s eng hs hc
    by_cases hb : s.stream_audio_buffer_.isEmpty
    · have hb' : s.stream_audio_buffer_ = [] := by
        cases h : s.stream_audio_buffer_ with
        | nil => rfl
        | cons x xs => rw [h] at hb; simp [List.isEmpty] at hb
      simp [finishStream, hs, hc, hb, hb']
    · simp [finishStream, hs, hc, hb]
  · intro s chunk eng hs hc hch hr
    obtain ⟨cx, l, v, b, pc, fc, pp, act, acc⟩ := s
    simp only at hs hc
    subst hs; subst hc
    obtain ⟨h1, h2, h3, h4, h5, h6, h7, h8, h9⟩ :=
      applySegments_fields eng.segments ⟨true, l, v, b ++ chunk, pc, fc, pp, true, acc⟩
    simp [processAudioChunk, hch, hr, h4]

theorem buffer_empty_after_pass_amended_witness :
    ((processAudioChunk activeExample [1.0] ⟨["y"], true⟩).state.stream_audio_buffer_ = []) ∧
    ((finishStream { activeExample with stream_audio_buffer_ := [1.0] }
        ⟨["y"], false⟩).state.stream_audio_buffer_ = []) ∧
    ((processAudioChunk activeExample [2.0] ⟨["y"], false⟩).state.stream_audio_buffer_ = [2.0]) :=
  ⟨buffer_empty_after_pass_amended.1 activeExample [1.0] ⟨["y"], true⟩ rfl rfl rfl rfl,
   buffer_empty_after_pass_amended.2.1 { activeExample with stream_audio_buffer_ := [1.0] }
     ⟨["y"], false⟩ rfl rfl,
   buffer_empty_after_pass_amended.2.2 activeExample [2.0] ⟨["y"], false⟩ rfl rfl rfl rfl⟩

/-- C4: over any run of streaming calls from an active session whose
final callback is installed, if the run ends with the session no longer
streaming — by a successful `finish`, a failing `finish` pass, or an
early `feed`-failure teardown — the final callback was invoked exactly
once; and when the `finish` pass fails, that single invocation carries
the accumulated transcript. -/
theorem final_callback_exactly_once :
    (∀ (s : STTState) (calls : List StreamCall),
       s.is_streaming_active_ = true → s.ctx_initialized = true →
       s.has_final_cb = true →
       (runCalls s calls).1.is_streaming_active_ = false →
       (finalTexts (runCalls s calls).2).length = 1) ∧
    (∀ (s : STTState), s.is_streaming_active_ = true →
       s.ctx_initialized = true → s.has_final_cb = true →
       s.stream_audio_buffer_.isEmpty = false →
       (finishStream s ⟨[], false⟩).events =
         [STTEvent.finalResult s.accumulated_stream_transcription_]) := by
  constructor
  · intro s calls hs hc hf
    exact (runCalls_count calls s hs hc hf).1
  · intro s hs hc hf hb
    obtain ⟨cx, l, v, b, pc, fc, pp, act, acc⟩ := s
    simp only at hs hc hf hb
    subst hs; subst hc; subst hf
    simp [finishStream, hb, applySegments]

theorem final_callback_exactly_once_witness :
    ((finalTexts (runCalls activeExample [StreamCall.finish ⟨[], true⟩]).2).length = 1) ∧
    ((finishStream { activeExample with stream_audio_buffer_ := [1.0], accumulated_stream_transcription_ := "tr" }
        ⟨[], false⟩).events = [STTEvent.finalResult "tr"]) :=
  ⟨final_callback_exactly_once.1 activeExample [StreamCall.finish ⟨[], true⟩]
     rfl rfl rfl (by decide),
   final_callback_exactly_once.2
     { activeExample with stream_audio_buffer_ := [1.0], accumulated_stream_transcription_ := "tr" }
     rfl rfl rfl rfl⟩

/-- C5: for every session built from `startStream` (with both callbacks),
any sequence of non-empty `feed` calls whose passes all succeed, and a
`finish`, the transcript delivered by the single final-callback
invocation equals the ordered concatenation of every partial result
delivered to the partial callback during the session. -/
theorem final_transcript_is_concat_of_partials (s : STTState)
    (params : STTAdvancedParams) (feeds : List StreamCall)
    (engF : EngineResult) (hc : s.ctx_initialized = true)
    (hs : s.is_streaming_active_ = false)
    (hgood : ∀ c ∈ feeds, goodFeed c) :
    finalTexts (runCalls (startStream s params true true).1
        (feeds ++ [StreamCall.finish engF])).2 =
      [concatAll (partialTexts (runCalls (startStream s params true true).1
        (feeds ++ [StreamCall.finish engF])).2)] := by
  have hstart : (startStream s params true true).1 =
      { s with current_stream_params_ := params, has_partial_cb := true,
               has_final_cb := true, stream_audio_buffer_ := [],
               accumulated_stream_transcription_ := "",
               is_streaming_active_ := true } := by
    simp [startStream, hc, hs]
  rw [hstart, runCalls_append]
  obtain ⟨g1, g2, g3, g4, g5, g6, g7⟩ :=
    runCalls_goodFeeds feeds
      { s with current_stream_params_ := params, has_partial_cb := true,
               has_final_cb := true, stream_audio_buffer_ := [],
               accumulated_stream_transcription_ := "",
               is_streaming_active_ := true }
      hgood (by simp) (by simp [hc]) (by simp) (by simp) (by simp)
  have hb : ((runCalls
      { s with current_stream_params_ := params, has_partial_cb := true,
               has_final_cb := true, stream_audio_buffer_ := [],
               accumulated_stream_transcription_ := "",
               is_streaming_active_ := true } feeds).1.stream_audio_buffer_).isEmpty
      = true := by
    rw [g5]; rfl
  have hfin := finishStream_of_empty_buffer _ engF g1 g2 hb
  have hone : ∀ (t : STTState), runCalls t [StreamCall.finish engF] =
      ((finishStream t engF).state, (finishStream t engF).events) := by
    intro t
    simp [runCalls, stepCall]
  rw [hone, hfin]
  simp only [g4, if_true, List.nil_append]
  rw [finalTexts_append, partialTexts_append, g7]
  simp only [List.nil_append, finalTexts_single_final]
  have hp : partialTexts [STTEvent.finalResult (runCalls
      { s with current_stream_params_ := params, has_partial_cb := true,
               has_final_cb := true, stream_audio_buffer_ := [],
               accumulated_stream_transcription_ := "",
               is_streaming_active_ := true }
      feeds).1.accumulated_stream_transcription_] = [] := rfl
  rw [hp, List.append_nil, g6]
  simp

theorem final_transcript_is_concat_of_partials_witness :
    finalTexts (runCalls (startStream idleExample exampleParams true true).1
        ([StreamCall.feed [1.0] ⟨["a "], true⟩,
          StreamCall.feed [2.0] ⟨["b"], true⟩] ++
         [StreamCall.finish ⟨[], true⟩])).2 =
      [concatAll (partialTexts (runCalls (startStream idleExample exampleParams true true).1
        ([StreamCall.feed [1.0] ⟨["a "], true⟩,
          StreamCall.feed [2.0] ⟨["b"], true⟩] ++
         [StreamCall.finish ⟨[], true⟩])).2)] :=
  final_transcript_is_concat_of_partials idleExample exampleParams
    [StreamCall.feed [1.0] ⟨["a "], true⟩, StreamCall.feed [2.0] ⟨["b"], true⟩]
    ⟨[], true⟩ rfl rfl
    (by
      intro c hcm
      simp only [List.mem_cons, List.not_mem_nil, or_false] at hcm
      rcases hcm with h | h <;> subst h <;> exact ⟨rfl, rfl⟩)

end Cactus
